import Mathlib

/-!
Shallow embedding of the rock-paper-scissors core in
`answers/rps/rps.16.cpp`: the move/score tables (`scoreMap`, `score`),
the round log (`Round`), the player interface (`Player`) with the two
built-in strategies (`Random`, `TitForTat`), the match runner (`play`)
and the random-move generator (`RandomMoveGenerator`/`randomMove`).
The process-wide pseudorandom source is modelled as an explicit state
`RNG`: an infinite stream of draws of the underlying distribution plus
a cursor; each draw reads the stream at the cursor and advances it.
Assertion failure (`assert` in `TitForTat::nextMove`) is modelled by
returning `none`.
-/

namespace Rps

/-- The `Move` enum: possible moves a player can make. -/
inductive Move where
  | Rock
  | Paper
  | Scissors
deriving DecidableEq, Fintype

/-- The `ScoreMap` built by `scoreMap()` (lines 30-56): a total
Move -> Move -> score table, transcribed entry by entry from the
`rock`, `paper` and `scissors` rows of the C++ initialization. -/
def scoreMap (m1 m2 : Move) : Int :=
  match m1, m2 with
  | .Rock, .Rock => 0
  | .Rock, .Paper => 1
  | .Rock, .Scissors => -1
  | .Paper, .Rock => -1
  | .Paper, .Paper => 0
  | .Paper, .Scissors => 1
  | .Scissors, .Rock => 1
  | .Scissors, .Paper => -1
  | .Scissors, .Scissors => 0

/-- Pairwise `score(Move, Move)` (line 74): look the pair up in the
score map. -/
def score (m1 m2 : Move) : Int := scoreMap m1 m2

/-- The moves made by two players in a single round of play. -/
structure Round where
  p1 : Move
  p2 : Move
deriving DecidableEq

/-- Batch `score(vector<Round>)` (lines 80-86): score each round in
order. (C++ overloads the name `score`; Lean needs a second name.) -/
def scoreRounds (rounds : List Round) : List Int :=
  rounds.map (fun r => score r.p1 r.p2)

/-- Explicit-state model of the process-wide random source: the stream
of successive draws of `dist_(rng_)` together with the position of the
next draw. -/
structure RNG where
  stream : Nat → Nat
  idx : Nat

/-- The `switch` in `RandomMoveGenerator::operator()` (lines 142-157):
draw 1 yields Rock, 2 yields Paper, everything else (case 3 and the
`default` label) yields Scissors. -/
def RandomMoveGenerator.moveOfDraw (d : Nat) : Move :=
  match d with
  | 1 => .Rock
  | 2 => .Paper
  | _ => .Scissors

/-- `randomMove()` (lines 165-168): draw once from the shared source
and convert the draw to a `Move`. -/
def randomMove (g : RNG) : Move × RNG :=
  (RandomMoveGenerator.moveOfDraw (g.stream g.idx), RNG.mk g.stream (g.idx + 1))

/-- The basic `Player` interface (lines 93-110): a name plus the
polymorphic `nextMove(history, my_pos)` behavior. `nextMove` threads
the random state explicitly and returns `none` on assertion failure. -/
structure Player where
  name : String
  nextMove : List Round → Nat → RNG → Option (Move × RNG)

/-- `Player::setName` (line 106). -/
def Player.setName (p : Player) (n : String) : Player :=
  { p with name := n }

/-- `Random::nextMove` (lines 178-183): ignores history and position,
returns a random move. -/
def Random.nextMove (_history : List Round) (_my_pos : Nat) (g : RNG) :
    Option (Move × RNG) :=
  some (randomMove g)

/-- A `Random` player with the given name (lines 171-183). -/
def Random.make (name : String) : Player :=
  ⟨name, Random.nextMove⟩

/-- `TitForTat::nextMove` (lines 194-204): assert valid position, play
randomly on an empty history, otherwise replay the opponent's move
from the last round. -/
def TitForTat.nextMove (history : List Round) (my_pos : Nat) (g : RNG) :
    Option (Move × RNG) :=
  if my_pos = 0 ∨ my_pos = 1 then
    match history.getLast? with
    | none => some (randomMove g)
    | some r => some (if my_pos = 0 then r.p2 else r.p1, g)
  else none

/-- A `TitForTat` player with the given name (lines 187-205). -/
def TitForTat.make (name : String) : Player :=
  ⟨name, TitForTat.nextMove⟩

/-- The loop body of `play` (lines 122-128): ask player 1 then player 2
for a move on the history so far, append the new round, repeat. -/
def playAux (p1 p2 : Player) : Nat → List Round → RNG → Option (List Round × RNG)
  | 0, history, g => some (history, g)
  | n + 1, history, g =>
    match p1.nextMove history 0 g with
    | none => none
    | some (m1, g1) =>
      match p2.nextMove history 1 g1 with
      | none => none
      | some (m2, g2) => playAux p1 p2 n (history ++ [Round.mk m1 m2]) g2

/-- `play(p1, p2, num_rounds)` (lines 118-131): run the rounds from an
empty history and score the full log. -/
def play (p1 p2 : Player) (num_rounds : Nat) (g : RNG) :
    Option (List Int × RNG) :=
  match playAux p1 p2 num_rounds [] g with
  | none => none
  | some (history, g2) => some (scoreRounds history, g2)

/-- One `nextMove` invocation made by the match runner: the history it
passed and the side it passed. -/
structure Call where
  history : List Round
  side : Nat
deriving DecidableEq

/-- Instrumented copy of `playAux` that additionally records, in order,
every `nextMove` invocation the runner makes. -/
def playAuxT (p1 p2 : Player) : Nat → List Round → RNG →
    Option (List Round × RNG × List Call)
  | 0, history, g => some (history, g, [])
  | n + 1, history, g =>
    match p1.nextMove history 0 g with
    | none => none
    | some (m1, g1) =>
      match p2.nextMove history 1 g1 with
      | none => none
      | some (m2, g2) =>
        match playAuxT p1 p2 n (history ++ [Round.mk m1 m2]) g2 with
        | none => none
        | some (log, g3, calls) =>
          some (log, g3, Call.mk history 0 :: Call.mk history 1 :: calls)

/-- A fixed concrete random stream (draws 1, 2, 3, ...) used for
concrete evaluations. -/
def g0 : RNG := RNG.mk (fun n => n + 1) 0

/-- Modelled from the spec: the fixed cyclic beats-relation -- Rock
beats Scissors, Scissors beats Paper, Paper beats Rock -- stated in the
spec's own words, to be compared against the `scoreMap` table. -/
def beats (m1 m2 : Move) : Bool :=
  match m1, m2 with
  | .Rock, .Scissors => true
  | .Scissors, .Paper => true
  | .Paper, .Rock => true
  | _, _ => false

/-- Helper: every draw is converted to one of the three valid moves. -/
theorem moveOfDraw_cases (e : Nat) :
    RandomMoveGenerator.moveOfDraw e = Move.Rock ∨
    RandomMoveGenerator.moveOfDraw e = Move.Paper ∨
    RandomMoveGenerator.moveOfDraw e = Move.Scissors :=
  match e with
  | 0 => Or.inr (Or.inr rfl)
  | 1 => Or.inl rfl
  | 2 => Or.inr (Or.inl rfl)
  | _ + 3 => Or.inr (Or.inr rfl)

/-- Helper: swapping the arguments of `score` negates it (holds for all
pairs, ties included). -/
theorem score_swap_neg (m1 m2 : Move) : score m2 m1 = -score m1 m2 := by
  cases m1 <;> cases m2 <;> rfl

/-- C1: for every pair of moves, `score` returns -1 if m1 beats m2, +1
if m2 beats m1, and 0 on a tie, under the fixed cyclic beats-relation;
in particular score(Rock, Scissors) = -1, score(Scissors, Paper) = -1,
score(Paper, Rock) = -1, and score(m, m) = 0 for every move m. -/
theorem score_beats_spec :
    (∀ m1 m2 : Move,
      score m1 m2 = if beats m1 m2 then -1 else if beats m2 m1 then 1 else 0) ∧
    score Move.Rock Move.Scissors = -1 ∧
    score Move.Scissors Move.Paper = -1 ∧
    score Move.Paper Move.Rock = -1 ∧
    (∀ m : Move, score m m = 0) := by
  refine ⟨?_, rfl, rfl, rfl, ?_⟩
  · intro m1 m2; cases m1 <;> cases m2 <;> rfl
  · intro m; cases m <;> rfl

/-- C6: for distinct moves, `score` is antisymmetric and exactly one
direction wins: one of score(m1,m2), score(m2,m1) is -1 and the other
is +1. -/
theorem score_antisym (m1 m2 : Move) (h : m1 ≠ m2) :
    score m1 m2 = -score m2 m1 ∧
    ((score m1 m2 = -1 ∧ score m2 m1 = 1) ∨
      (score m1 m2 = 1 ∧ score m2 m1 = -1)) := by
  cases m1 <;> cases m2 <;> revert h <;> decide

/-- Witness for C6 at the concrete pair (Rock, Scissors). -/
theorem score_antisym_witness :
    Move.Rock ≠ Move.Scissors ∧
    (score Move.Rock Move.Scissors = -score Move.Scissors Move.Rock ∧
      ((score Move.Rock Move.Scissors = -1 ∧ score Move.Scissors Move.Rock = 1) ∨
        (score Move.Rock Move.Scissors = 1 ∧ score Move.Scissors Move.Rock = -1))) :=
  ⟨by decide, score_antisym Move.Rock Move.Scissors (by decide)⟩

/-- C4: batch scoring preserves length and scores each round's pair of
moves in place, with no reordering. -/
theorem scoreRounds_spec (rounds : List Round) :
    (scoreRounds rounds).length = rounds.length ∧
    ∀ i, (h : i < rounds.length) →
      (scoreRounds rounds)[i]? =
        some (score (rounds.get ⟨i, h⟩).p1 (rounds.get ⟨i, h⟩).p2) := by
  refine ⟨List.length_map rounds _, ?_⟩
  intro i h
  simp [scoreRounds, List.getElem?_map, List.getElem?_eq_getElem h]

/-- Witness for C4 at the concrete one-round log [(Rock, Paper)]. -/
theorem scoreRounds_spec_witness :
    (0 < ([Round.mk Move.Rock Move.Paper] : List Round).length) ∧
    (scoreRounds [Round.mk Move.Rock Move.Paper])[0]? =
      some (score (([Round.mk Move.Rock Move.Paper] : List Round).get ⟨0, by decide⟩).p1
        (([Round.mk Move.Rock Move.Paper] : List Round).get ⟨0, by decide⟩).p2) :=
  ⟨by decide, (scoreRounds_spec [Round.mk Move.Rock Move.Paper]).2 0 (by decide)⟩

/-- C8: a zero-round match returns the empty score sequence, and the
instrumented runner records no strategy calls at all. -/
theorem play_zero_spec (p1 p2 : Player) (g : RNG) :
    play p1 p2 0 g = some ([], g) ∧
    playAuxT p1 p2 0 [] g = some ([], g, []) :=
  ⟨rfl, rfl⟩

/-- C9: the name attribute is cosmetic: two built-in players of the
same kind differing only in name have identical `nextMove` behavior on
every history, side and random state, and `setName` changes only the
name field. -/
theorem name_cosmetic :
    (∀ (n1 n2 : String) (h : List Round) (s : Nat) (g : RNG),
      (Random.make n1).nextMove h s g = (Random.make n2).nextMove h s g) ∧
    (∀ (n1 n2 : String) (h : List Round) (s : Nat) (g : RNG),
      (TitForTat.make n1).nextMove h s g = (TitForTat.make n2).nextMove h s g) ∧
    (∀ (p : Player) (n : String),
      (p.setName n).name = n ∧ (p.setName n).nextMove = p.nextMove) :=
  ⟨fun _ _ _ _ _ => rfl, fun _ _ _ _ _ => rfl, fun _ _ => ⟨rfl, rfl⟩⟩

/-- C10: the random move generator is total over its draws: 1 maps to
Rock, 2 to Paper, every other value to Scissors; hence `Random.nextMove`
and `TitForTat.nextMove` on an empty history always yield a valid move
from the random source. -/
theorem randomMoveGenerator_total (d : Nat) (hd1 : d ≠ 1) (hd2 : d ≠ 2) :
    RandomMoveGenerator.moveOfDraw 1 = Move.Rock ∧
    RandomMoveGenerator.moveOfDraw 2 = Move.Paper ∧
    RandomMoveGenerator.moveOfDraw d = Move.Scissors ∧
    (∀ e : Nat, RandomMoveGenerator.moveOfDraw e = Move.Rock ∨
      RandomMoveGenerator.moveOfDraw e = Move.Paper ∨
      RandomMoveGenerator.moveOfDraw e = Move.Scissors) ∧
    (∀ (h : List Round) (s : Nat) (g : RNG),
      Random.nextMove h s g = some (randomMove g)) ∧
    (∀ (s : Nat) (g : RNG), s = 0 ∨ s = 1 →
      TitForTat.nextMove [] s g = some (randomMove g)) := by
  refine ⟨rfl, rfl, ?_, ?_, fun _ _ _ => rfl, ?_⟩
  · match d, hd1, hd2 with
    | 0, _, _ => rfl
    | 1, hd1, _ => exact absurd rfl hd1
    | 2, _, hd2 => exact absurd rfl hd2
    | n + 3, _, _ => rfl
  · exact moveOfDraw_cases
  · intro s g hs
    rcases hs with hs | hs <;> subst hs <;> rfl

/-- Witness for C10 at the concrete out-of-range draw 5 (and side 0). -/
theorem randomMoveGenerator_total_witness :
    (5 : Nat) ≠ 1 ∧ (5 : Nat) ≠ 2 ∧
    (RandomMoveGenerator.moveOfDraw 1 = Move.Rock ∧
      RandomMoveGenerator.moveOfDraw 2 = Move.Paper ∧
      RandomMoveGenerator.moveOfDraw 5 = Move.Scissors ∧
      (∀ e : Nat, RandomMoveGenerator.moveOfDraw e = Move.Rock ∨
        RandomMoveGenerator.moveOfDraw e = Move.Paper ∨
        RandomMoveGenerator.moveOfDraw e = Move.Scissors) ∧
      (∀ (h : List Round) (s : Nat) (g : RNG),
        Random.nextMove h s g = some (randomMove g)) ∧
      (∀ (s : Nat) (g : RNG), s = 0 ∨ s = 1 →
        TitForTat.nextMove [] s g = some (randomMove g))) :=
  ⟨by decide, by decide, randomMoveGenerator_total 5 (by decide) (by decide)⟩

/-- C5: on a valid side, TitForTat (the Mirror strategy) returns the
opponent's move from the last round of a non-empty history, and on an
empty history returns a (valid) move from the random source. -/
theorem titForTat_nextMove_spec (history : List Round) (my_pos : Nat) (g : RNG)
    (hside : my_pos = 0 ∨ my_pos = 1) :
    (∀ hne : history ≠ [],
      TitForTat.nextMove history my_pos g =
        some (if my_pos = 0 then (history.getLast hne).p2
          else (history.getLast hne).p1, g)) ∧
    (history = [] →
      TitForTat.nextMove history my_pos g = some (randomMove g) ∧
      ((randomMove g).1 = Move.Rock ∨ (randomMove g).1 = Move.Paper ∨
        (randomMove g).1 = Move.Scissors)) := by
  constructor
  · intro hne
    simp only [TitForTat.nextMove, if_pos hside,
      List.getLast?_eq_getLast history hne]
  · intro he
    subst he
    refine ⟨by simp only [TitForTat.nextMove, if_pos hside]; rfl, ?_⟩
    exact moveOfDraw_cases (g.stream g.idx)

/-- Witness for C5: with last round (Rock, Paper), side 0 next returns
Paper and side 1 next returns Rock. -/
theorem titForTat_nextMove_spec_witness :
    ((0 : Nat) = 0 ∨ (0 : Nat) = 1) ∧ ((1 : Nat) = 0 ∨ (1 : Nat) = 1) ∧
    TitForTat.nextMove [Round.mk Move.Rock Move.Paper] 0 g0 =
      some (Move.Paper, g0) ∧
    TitForTat.nextMove [Round.mk Move.Rock Move.Paper] 1 g0 =
      some (Move.Rock, g0) := by
  refine ⟨Or.inl rfl, Or.inr rfl, ?_, ?_⟩
  · have h := (titForTat_nextMove_spec [Round.mk Move.Rock Move.Paper] 0 g0
      (Or.inl rfl)).1 (by simp)
    simpa using h
  · have h := (titForTat_nextMove_spec [Round.mk Move.Rock Move.Paper] 1 g0
      (Or.inr rfl)).1 (by simp)
    simpa using h

/-- Counterexample for C7: `Random.nextMove` called with the invalid
side 2 does not fail fast; it silently returns a move. -/
theorem random_ignores_side_cex :
    Random.nextMove [] 2 g0 = some (randomMove g0) ∧
    Random.nextMove [] 2 g0 ≠ none ∧
    (randomMove g0).1 = Move.Rock :=
  ⟨rfl, by simp [Random.nextMove], rfl⟩

/-- C7 (amended): `TitForTat.nextMove` fails fast (assertion) on any
side other than 0 or 1, but `Random.nextMove` ignores the side entirely
and silently returns a random move for every side value. -/
theorem side_check_spec :
    (∀ (h : List Round) (s : Nat) (g : RNG), s ≠ 0 → s ≠ 1 →
      TitForTat.nextMove h s g = none) ∧
    (∀ (h : List Round) (s : Nat) (g : RNG),
      Random.nextMove h s g = some (randomMove g)) := by
  refine ⟨?_, fun _ _ _ => rfl⟩
  intro h s g hs0 hs1
  have hno : ¬(s = 0 ∨ s = 1) := by
    rintro (rfl | rfl)
    · exact hs0 rfl
    · exact hs1 rfl
  simp only [TitForTat.nextMove, if_neg hno]

/-- Witness for C7 (amended) at the concrete invalid side 2. -/
theorem side_check_spec_witness :
    (2 : Nat) ≠ 0 ∧ (2 : Nat) ≠ 1 ∧
    TitForTat.nextMove [] 2 g0 = none :=
  ⟨by decide, by decide, side_check_spec.1 [] 2 g0 (by decide) (by decide)⟩

/-- Counterexample for C2: with round-0 draws Rock and Paper (stream
1, 2, ...), the 5-round Mirror-vs-Mirror match scores [1, -1, 1, -1, 1]:
the round-1 score is -1, not the claimed 0. -/
theorem mirror_round1_not_tie :
    (play (TitForTat.make "A") (TitForTat.make "B") 5 g0).map Prod.fst =
      some [1, -1, 1, -1, 1] ∧
    ([(1 : Int), -1, 1, -1, 1])[1]? = some (-1) ∧
    ((-1 : Int) ≠ 0) :=
  ⟨rfl, rfl, by decide⟩

/-- C2 (amended): in a 5-round Mirror-vs-Mirror match, whatever the
round-0 random moves a and b are, from round 1 onward each side's move
equals the opponent's move from the previous round (so the log is
[(a,b), (b,a), (a,b), (b,a), (a,b)]), and each score from round 1
onward is the negation of the previous round's score (scores are all 0
from round 1 onward only when round 0 was itself a tie). -/
theorem mirror_match_spec (g : RNG) :
    ∃ a b g2,
      playAux (TitForTat.make "A") (TitForTat.make "B") 5 [] g =
        some ([Round.mk a b, Round.mk b a, Round.mk a b, Round.mk b a,
          Round.mk a b], g2) ∧
      play (TitForTat.make "A") (TitForTat.make "B") 5 g =
        some ([score a b, score b a, score a b, score b a, score a b], g2) ∧
      (∀ i : Fin 4,
        (([Round.mk a b, Round.mk b a, Round.mk a b, Round.mk b a,
          Round.mk a b] : List Round).get i.succ).p1 =
          (([Round.mk a b, Round.mk b a, Round.mk a b, Round.mk b a,
            Round.mk a b] : List Round).get i.castSucc).p2 ∧
        (([Round.mk a b, Round.mk b a, Round.mk a b, Round.mk b a,
          Round.mk a b] : List Round).get i.succ).p2 =
          (([Round.mk a b, Round.mk b a, Round.mk a b, Round.mk b a,
            Round.mk a b] : List Round).get i.castSucc).p1) ∧
      (∀ i : Fin 4,
        (([score a b, score b a, score a b, score b a,
          score a b] : List Int).get i.succ) =
          -(([score a b, score b a, score a b, score b a,
            score a b] : List Int).get i.castSucc)) := by
  refine ⟨RandomMoveGenerator.moveOfDraw (g.stream g.idx),
    RandomMoveGenerator.moveOfDraw (g.stream (g.idx + 1)),
    RNG.mk g.stream (g.idx + 1 + 1), rfl, rfl, ?_, ?_⟩
  · intro i
    fin_cases i <;> exact ⟨rfl, rfl⟩
  · intro i
    fin_cases i <;> simp only [List.get_eq_getElem] <;> exact score_swap_neg _ _

/-- Helper: the instrumented runner computes the same log and final
random state as the plain one; it only adds the call trace. -/
theorem playAux_eq_playAuxT (p1 p2 : Player) :
    ∀ (n : Nat) (h : List Round) (g : RNG),
      playAux p1 p2 n h g =
        Option.map (fun x => (x.1, x.2.1)) (playAuxT p1 p2 n h g) := by
  intro n
  induction n with
  | zero => intro h g; rfl
  | succ n ih =>
    intro h g
    rcases hm1 : p1.nextMove h 0 g with _ | ⟨m1, g1⟩
    · simp [playAux, playAuxT, hm1]
    · rcases hm2 : p2.nextMove h 1 g1 with _ | ⟨m2, g2⟩
      · simp [playAux, playAuxT, hm1, hm2]
      · simp only [playAux, playAuxT, hm1, hm2]
        rw [ih]
        rcases playAuxT p1 p2 n (h ++ [Round.mk m1 m2]) g2 with _ | ⟨log, g3, calls⟩
        · rfl
        · rfl

/-- Helper: when each strategy always returns a move on the side the
runner passes it (0 for player 1, 1 for player 2 -- the only sides
`play` ever uses), the instrumented runner extends the accumulated
history by exactly n rounds and records two calls per round, each
passing the history strictly before that round, side 0 first, then
side 1 with the same history. -/
theorem playAuxT_total_spec (p1 p2 : Player)
    (h1 : ∀ h g, ((p1.nextMove h 0 g).isSome) = true)
    (h2 : ∀ h g, ((p2.nextMove h 1 g).isSome) = true) :
    ∀ (n : Nat) (acc : List Round) (g : RNG),
      ∃ ext g2 calls,
        playAuxT p1 p2 n acc g = some (acc ++ ext, g2, calls) ∧
        ext.length = n ∧
        calls.length = 2 * n ∧
        ∀ i, i < n →
          calls[2 * i]? = some (Call.mk (acc ++ ext.take i) 0) ∧
          calls[2 * i + 1]? = some (Call.mk (acc ++ ext.take i) 1) := by
  intro n
  induction n with
  | zero =>
    intro acc g
    exact ⟨[], g, [], by simp [playAuxT], rfl, rfl,
      fun i hi => absurd hi (Nat.not_lt_zero i)⟩
  | succ n ih =>
    intro acc g
    obtain ⟨mg1, hm1⟩ := Option.isSome_iff_exists.mp (h1 acc g)
    obtain ⟨m1, g1⟩ := mg1
    obtain ⟨mg2, hm2⟩ := Option.isSome_iff_exists.mp (h2 acc g1)
    obtain ⟨m2, g2⟩ := mg2
    obtain ⟨ext, g3, calls, heq, hlen, hclen, hcalls⟩ :=
      ih (acc ++ [Round.mk m1 m2]) g2
    refine ⟨Round.mk m1 m2 :: ext, g3,
      Call.mk acc 0 :: Call.mk acc 1 :: calls, ?_, ?_, ?_, ?_⟩
    · simp only [playAuxT, hm1, hm2, heq]
      simp [List.append_assoc]
    · simp [hlen]
    · simp only [List.length_cons, hclen]; omega
    · intro i hi
      match i with
      | 0 => exact ⟨by simp, by simp⟩
      | j + 1 =>
        have hj : j < n := by omega
        have e1 : 2 * (j + 1) = 2 * j + 1 + 1 := by ring
        have e2 : 2 * (j + 1) + 1 = 2 * j + 1 + 1 + 1 := by ring
        constructor
        · rw [e1, List.getElem?_cons_succ, List.getElem?_cons_succ,
            (hcalls j hj).1]
          simp [List.take_succ_cons, List.append_assoc]
        · rw [e2, List.getElem?_cons_succ, List.getElem?_cons_succ,
            (hcalls j hj).2]
          simp [List.take_succ_cons, List.append_assoc]

/-- C3: when each strategy returns a move on the side the runner passes
it (0 for A, 1 for B -- the only sides `play` uses, and both built-ins
satisfy this), `play(A, B, N)` returns exactly N scores, the batch
scoring of the full N-round log; at each round i the runner calls
strategy A with the log of rounds 0..i-1 and side 0, then strategy B
with the very same log (not including A's round-i move) and side 1. -/
theorem play_rounds_spec (p1 p2 : Player) (N : Nat) (g : RNG)
    (h1 : ∀ h g, ((p1.nextMove h 0 g).isSome) = true)
    (h2 : ∀ h g, ((p2.nextMove h 1 g).isSome) = true) :
    ∃ log g2 calls,
      playAuxT p1 p2 N [] g = some (log, g2, calls) ∧
      log.length = N ∧
      play p1 p2 N g = some (scoreRounds log, g2) ∧
      (scoreRounds log).length = N ∧
      calls.length = 2 * N ∧
      ∀ i, i < N →
        calls[2 * i]? = some (Call.mk (log.take i) 0) ∧
        calls[2 * i + 1]? = some (Call.mk (log.take i) 1) := by
  obtain ⟨ext, g2, calls, heq, hlen, hclen, hcalls⟩ :=
    playAuxT_total_spec p1 p2 h1 h2 N [] g
  rw [List.nil_append] at heq
  refine ⟨ext, g2, calls, heq, hlen, ?_, ?_, hclen, ?_⟩
  · simp [play, playAux_eq_playAuxT, heq]
  · simpa [scoreRounds] using hlen
  · intro i hi
    simpa using hcalls i hi

/-- Witness for C3: a Mirror-vs-Mirror match for 2 rounds from the
fixed stream; both side-restricted totality hypotheses hold for the
TitForTat built-in since 0 and 1 are its valid sides. -/
theorem play_rounds_spec_witness :
    (∀ (h : List Round) (g : RNG),
      (((TitForTat.make "A").nextMove h 0 g).isSome) = true) ∧
    (∀ (h : List Round) (g : RNG),
      (((TitForTat.make "B").nextMove h 1 g).isSome) = true) ∧
    (∃ log g2 calls,
      playAuxT (TitForTat.make "A") (TitForTat.make "B") 2 [] g0 =
        some (log, g2, calls) ∧
      log.length = 2 ∧
      play (TitForTat.make "A") (TitForTat.make "B") 2 g0 =
        some (scoreRounds log, g2) ∧
      (scoreRounds log).length = 2 ∧
      calls.length = 2 * 2 ∧
      ∀ i, i < 2 →
        calls[2 * i]? = some (Call.mk (log.take i) 0) ∧
        calls[2 * i + 1]? = some (Call.mk (log.take i) 1)) :=
  ⟨fun h g => by
      cases hl : h.getLast? <;>
        simp [TitForTat.make, TitForTat.nextMove, hl],
    fun h g => by
      cases hl : h.getLast? <;>
        simp [TitForTat.make, TitForTat.nextMove, hl],
    play_rounds_spec (TitForTat.make "A") (TitForTat.make "B") 2 g0
      (fun h g => by
        cases hl : h.getLast? <;>
          simp [TitForTat.make, TitForTat.nextMove, hl])
      (fun h g => by
        cases hl : h.getLast? <;>
          simp [TitForTat.make, TitForTat.nextMove, hl])⟩

end Rps
